import Mathlib

/-!
# Verification of the Video-Audio-Extractor workflow (`audio_extractor.py`)

Shallow embedding of the single-file Streamlit workflow script:
stream probing (`get_audio_streams`), track selection (`track_options` /
`selected_index`), extraction (`extract_audio_track`), enhancement
(pre-emphasis + peak normalization over exact rationals), format conversion,
and the session orchestrator with its `finally` cleanup block.

External effects (subprocess invocations, file writes, UI messages) are
modelled as explicit traces; the external environment (tool exit codes,
stderr text, parsed probe output, temp-file names, library faults,
unlink success) is a parameter record `Env`.
-/

namespace AudioExtractor

/-! ## Decimal rendering of numbers, modelling Python str(int) -/

/-- The decimal digit character for `d` (callers always pass `d < 10`). -/
def digitChar : Nat → Char
  | 0 => '0' | 1 => '1' | 2 => '2' | 3 => '3' | 4 => '4'
  | 5 => '5' | 6 => '6' | 7 => '7' | 8 => '8' | _ => '9'

/-- Fuel-driven decimal digit list (most significant first). -/
def natDigitsAux : Nat → Nat → List Char
  | 0, _ => []
  | f + 1, n =>
    if n < 10 then [digitChar n]
    else natDigitsAux f (n / 10) ++ [digitChar (n % 10)]

/-- Decimal digits of `n`, modelling Python `str` on a nonnegative int. -/
def natDigits (n : Nat) : List Char := natDigitsAux (n + 1) n

/-- Decimal rendering of a natural number as a string. -/
def natRepr (n : Nat) : String := ⟨natDigits n⟩

theorem natDigitsAux_fuel_eq :
    ∀ f₁ f₂ n, n < f₁ → n < f₂ → natDigitsAux f₁ n = natDigitsAux f₂ n := by
  intro f₁
  induction f₁ with
  | zero => intro f₂ n h; omega
  | succ f ih =>
    intro f₂ n h₁ h₂
    cases f₂ with
    | zero => omega
    | succ g =>
      simp only [natDigitsAux]
      by_cases hn : n < 10
      · simp [hn]
      · simp only [hn, if_false]
        have hlt : n / 10 < n := Nat.div_lt_self (by omega) (by omega)
        rw [ih g (n / 10) (by omega) (by omega)]

theorem natDigits_lt (n : Nat) (h : n < 10) : natDigits n = [digitChar n] := by
  simp [natDigits, natDigitsAux, h]

theorem natDigits_ge (n : Nat) (h : ¬ n < 10) :
    natDigits n = natDigits (n / 10) ++ [digitChar (n % 10)] := by
  show natDigitsAux (n + 1) n = natDigitsAux (n / 10 + 1) (n / 10) ++ [digitChar (n % 10)]
  rw [show natDigitsAux (n + 1) n
        = if n < 10 then [digitChar n]
          else natDigitsAux n (n / 10) ++ [digitChar (n % 10)] from rfl]
  simp only [h, if_false]
  have hlt : n / 10 < n := Nat.div_lt_self (by omega) (by omega)
  rw [natDigitsAux_fuel_eq n (n / 10 + 1) (n / 10) (by omega) (by omega)]

theorem natDigits_ne_nil (n : Nat) : natDigits n ≠ [] := by
  by_cases hn : n < 10
  · rw [natDigits_lt n hn]; simp
  · rw [natDigits_ge n hn]; simp

theorem digitChar_ne_space (d : Nat) : digitChar d ≠ ' ' := by
  unfold digitChar
  split <;> decide

theorem digitChar_injOn : ∀ d < 10, ∀ e < 10, digitChar d = digitChar e → d = e := by
  decide

theorem natDigits_no_space (n : Nat) : ∀ c ∈ natDigits n, c ≠ ' ' := by
  induction n using Nat.strong_induction_on with
  | _ n ih =>
    by_cases hn : n < 10
    · rw [natDigits_lt n hn]
      simp only [List.mem_singleton]
      rintro c rfl
      exact digitChar_ne_space n
    · rw [natDigits_ge n hn]
      simp only [List.mem_append, List.mem_singleton]
      rintro c (hc | rfl)
      · exact ih (n / 10) (Nat.div_lt_self (by omega) (by omega)) c hc
      · exact digitChar_ne_space (n % 10)

theorem natDigits_injective : ∀ m n, natDigits m = natDigits n → m = n := by
  intro m
  induction m using Nat.strong_induction_on with
  | _ m ih =>
    intro n h
    by_cases hm : m < 10 <;> by_cases hn : n < 10
    · rw [natDigits_lt m hm, natDigits_lt n hn] at h
      simp only [List.cons.injEq, and_true] at h
      exact digitChar_injOn m hm n hn h
    · exfalso
      rw [natDigits_lt m hm, natDigits_ge n hn] at h
      have := congrArg List.length h
      simp only [List.length_singleton, List.length_append] at this
      have : (natDigits (n / 10)).length = 0 := by omega
      exact natDigits_ne_nil (n / 10) (List.length_eq_zero.mp this)
    · exfalso
      rw [natDigits_ge m hm, natDigits_lt n hn] at h
      have := congrArg List.length h
      simp only [List.length_singleton, List.length_append] at this
      have : (natDigits (m / 10)).length = 0 := by omega
      exact natDigits_ne_nil (m / 10) (List.length_eq_zero.mp this)
    · rw [natDigits_ge m hm, natDigits_ge n hn] at h
      have h' := congrArg List.reverse h
      simp only [List.reverse_append, List.reverse_cons, List.reverse_nil,
        List.nil_append, List.singleton_append, List.cons.injEq] at h'
      obtain ⟨hlast, hrest⟩ := h'
      have hdiv : m / 10 = n / 10 := by
        apply ih (m / 10) (Nat.div_lt_self (by omega) (by omega))
        exact List.reverse_injective hrest
      have hmod : m % 10 = n % 10 :=
        digitChar_injOn (m % 10) (Nat.mod_lt _ (by omega)) (n % 10)
          (Nat.mod_lt _ (by omega)) hlast
      omega

/-- Decimal renderings of distinct naturals differ. -/
theorem natRepr_injective : ∀ m n, natRepr m = natRepr n → m = n := by
  intro m n h
  exact natDigits_injective m n (congrArg String.data h)

/-! ## JSON-ish values and the stream prober (`get_audio_streams`) -/

/-- A JSON scalar as it can appear in a parsed ffprobe stream entry, plus
`null` for Python's `None` (the value of `dict.get` with no default). -/
inductive FieldVal where
  | null : FieldVal
  | str : String → FieldVal
  | num : Int → FieldVal
deriving DecidableEq

/-- Python `str()` of a `FieldVal`, as interpolated into an f-string. -/
def FieldVal.render : FieldVal → String
  | .null => "None"
  | .str s => s
  | .num n => if n < 0 then "-" ++ natRepr n.natAbs else natRepr n.natAbs

/-- One entry of the `streams` list in ffprobe's JSON output: each raw field
is present (`some`) or absent (`none`); `tags` is an optional map from tag
names to string values. -/
structure JsonStream where
  index : Option FieldVal
  codec_name : Option FieldVal
  sample_rate : Option FieldVal
  channels : Option FieldVal
  duration : Option FieldVal
  bit_rate : Option FieldVal
  tags : Option (List (String × String))
deriving DecidableEq

/-- The descriptor dict built for each stream by `get_audio_streams`. -/
structure StreamInfo where
  index : FieldVal
  codec : FieldVal
  sample_rate : FieldVal
  channels : FieldVal
  duration : FieldVal
  bit_rate : FieldVal
  language : String
  title : String
deriving DecidableEq

/-- Per-stream descriptor construction (`audio_extractor.py` lines 47-56):
`stream.get('index')` (no default, so `None` when absent), the other direct
fields with default `'unknown'`, and `language`/`title` read from the
optional `tags` map with default `'unknown'`. -/
def streamInfo (s : JsonStream) : StreamInfo where
  index := s.index.getD FieldVal.null
  codec := s.codec_name.getD (FieldVal.str "unknown")
  sample_rate := s.sample_rate.getD (FieldVal.str "unknown")
  channels := s.channels.getD (FieldVal.str "unknown")
  duration := s.duration.getD (FieldVal.str "unknown")
  bit_rate := s.bit_rate.getD (FieldVal.str "unknown")
  language :=
    match s.tags with
    | none => "unknown"
    | some m => (m.lookup "language").getD "unknown"
  title :=
    match s.tags with
    | none => "unknown"
    | some m => (m.lookup "title").getD "unknown"

/-- The top-level parsed ffprobe document; `streams` may be absent
(`data.get('streams', [])`). -/
structure ProbeData where
  streams : Option (List JsonStream)
deriving DecidableEq

/-- A user-visible status message emitted through the UI framework. -/
inductive Msg where
  | error : String → Msg
  | warning : String → Msg
  | info : String → Msg
  | success : String → Msg
deriving DecidableEq

/-- An observable external side effect of the workflow. -/
inductive Event where
  /-- A subprocess invocation with its full argument vector. -/
  | run : List String → Event
  /-- `sf.write enhanced_path samples` -/
  | sfWrite : String → List ℚ → Event
  /-- `audio_segment.export(path, format)` -/
  | exportAudio : String → String → Event
deriving DecidableEq

/-- The ffprobe argument vector (`audio_extractor.py` lines 29-36). -/
def ffprobe_cmd (video_path : String) : List String :=
  ["ffprobe", "-v", "quiet", "-print_format", "json", "-show_streams",
   "-select_streams", "a", video_path]

/-- `get_audio_streams` (lines 26-62), as a function of the environment's
behaviour of the ffprobe subprocess: its exit code, its stderr, and the
result of `json.loads` on its stdout (`none` models a parse error or any
other exception in the `try` body, whose message text is `probeErr`).
Returns the descriptor list together with the UI messages emitted. -/
def get_audio_streams (rc : Int) (stderr : String) (parsed : Option ProbeData)
    (probeErr : String) : List StreamInfo × List Msg :=
  if rc ≠ 0 then
    ([], [Msg.error ("Error analyzing video: " ++ stderr)])
  else
    match parsed with
    | none => ([], [Msg.error ("Error getting audio streams: " ++ probeErr)])
    | some data => (((data.streams.getD []).map streamInfo), [])

/-! ## Track labels and UI selection (lines 118-135) -/

/-- The label built for entry `i` of the track list (lines 125-130): starts
with `"Track {i}"`, appends language and title segments when they are not
`'unknown'`, and always appends the channels/codec segment. (The source
builds this by successive `+=`; appending the empty string for a skipped
segment is the same string.) -/
def track_label (i : Nat) (s : StreamInfo) : String :=
  "Track " ++ natRepr i
    ++ (if s.language ≠ "unknown" then " - Language: " ++ s.language else "")
    ++ (if s.title ≠ "unknown" then " - Title: " ++ s.title else "")
    ++ " - Channels: " ++ s.channels.render ++ ", Codec: " ++ s.codec.render

/-- The option list passed to the selectbox (`for i, stream in
enumerate(audio_streams)`). -/
def track_options (streams : List StreamInfo) : List String :=
  streams.enum.map (fun p => track_label p.1 p.2)

/-- `selected_index = track_options.index(selected_track)` where the user
picked the entry at position `k` of the selectbox. `List.indexOf`, like
Python's `list.index`, returns the position of the first occurrence. -/
def selected_index (options : List String) (k : Nat) : Nat :=
  options.indexOf (options.getD k "")

/-! Every label begins with `"Track "` followed by the decimal position and a
space-initiated continuation, so the position can be read back off the label;
labels of distinct positions are therefore distinct. -/

theorem data_natRepr (n : Nat) : (natRepr n).data = natDigits n := rfl

/-- Reads the decimal digits between the `"Track "` prefix and the first
following space of a label. -/
def labelNum (lbl : String) : List Char :=
  (lbl.data.drop 6).takeWhile (fun c => decide (c ≠ ' '))

theorem takeWhile_no_space (a r : List Char) (ha : ∀ c ∈ a, c ≠ ' ') :
    (a ++ ' ' :: r).takeWhile (fun c => decide (c ≠ ' ')) = a := by
  induction a with
  | nil => simp
  | cons x t ih =>
    have hx : x ≠ ' ' := ha x (by simp)
    simp only [List.cons_append, List.takeWhile_cons, hx, decide_True,
      decide_not, List.cons.injEq, true_and]
    simpa [hx] using ih (fun c hc => ha c (by simp [hc]))

theorem labelNum_track_label (i : Nat) (s : StreamInfo) :
    labelNum (track_label i s) = natDigits i := by
  have hL : (" - Language: " : String).data = ' ' :: ("- Language: " : String).data := by decide
  have hT : (" - Title: " : String).data = ' ' :: ("- Title: " : String).data := by decide
  have hC : (" - Channels: " : String).data = ' ' :: ("- Channels: " : String).data := by decide
  unfold labelNum track_label
  split_ifs with h1 h2 h2 <;>
  · simp only [String.data_append, List.append_assoc, hL, hT, hC, data_natRepr,
      List.cons_append, List.nil_append]
    rw [show ∀ X : List Char, List.drop 6 ('T' :: 'r' :: 'a' :: 'c' :: 'k' :: ' ' :: X) = X
        from fun _ => rfl]
    exact takeWhile_no_space _ _ (natDigits_no_space i)

/-- Labels at distinct positions are distinct, whatever the stream metadata:
the decimal position is recoverable from the label. -/
theorem track_label_inj_idx (i j : Nat) (s t : StreamInfo)
    (h : track_label i s = track_label j t) : i = j := by
  apply natDigits_injective
  rw [← labelNum_track_label i s, ← labelNum_track_label j t, h]

theorem track_options_length (streams : List StreamInfo) :
    (track_options streams).length = streams.length := by
  simp [track_options]

theorem track_options_getElem (streams : List StreamInfo) (k : Nat)
    (hk : k < (track_options streams).length) :
    (track_options streams)[k] =
      track_label k (streams.get ⟨k, by simpa [track_options] using hk⟩) := by
  simp [track_options]

theorem track_options_nodup (streams : List StreamInfo) :
    (track_options streams).Nodup := by
  rw [List.nodup_iff_injective_getElem]
  rintro ⟨a, ha⟩ ⟨b, hb⟩ hab
  change (track_options streams)[a] = (track_options streams)[b] at hab
  rw [track_options_getElem streams a ha, track_options_getElem streams b hb] at hab
  exact Fin.mk_eq_mk.mpr (track_label_inj_idx _ _ _ _ hab)

/-- The position the user picked is the position `list.index` recovers:
labels are pairwise distinct, so the first occurrence of the selected label
is the selected entry itself. -/
theorem selected_index_eq (streams : List StreamInfo) (k : Nat)
    (hk : k < streams.length) :
    selected_index (track_options streams) k = k := by
  have hk' : k < (track_options streams).length := by
    simpa [track_options_length] using hk
  unfold selected_index
  rw [List.getD_eq_getElem _ _ hk']
  exact List.indexOf_getElem (track_options_nodup streams) k hk'

/-! ## The enhancement transforms (lines 150-155), over exact rationals

`librosa.effects.preemphasis(y)` with the default coefficient 0.97 filters
`out[n] = y[n] - 0.97 * y[n-1]` with the default initial condition
`y[-1] := 2*y[0] - y[1]`.  Samples are modelled as exact rationals. -/

/-- The library-default pre-emphasis coefficient. -/
def preemCoef : ℚ := 97 / 100

/-- `out[n] = y[n] - coef * y[n-1]`, where `prev` is the sample before the
head of the remaining list. -/
def preemphasisAux (prev : ℚ) : List ℚ → List ℚ
  | [] => []
  | x :: xs => (x - preemCoef * prev) :: preemphasisAux x xs

/-- `librosa.effects.preemphasis` with its defaults.  Inputs of length < 2
are degenerate for the library (the default initial condition reads `y[1]`)
and are returned unchanged here; no claim depends on them. -/
def preemphasis (y : List ℚ) : List ℚ :=
  match y with
  | y0 :: y1 :: _ => preemphasisAux (2 * y0 - y1) y
  | _ => y

/-- `np.max(np.abs(y))`: the largest absolute sample value (0 for the empty
signal, on which `np.max` would fault). -/
def peakAbs (y : List ℚ) : ℚ :=
  y.foldr (fun x m => max |x| m) 0

/-- `y / np.max(np.abs(y))`: divide every sample by the peak. (The source
has no guard: for an all-zero signal the divisor is 0.) -/
def normalize (y : List ℚ) : List ℚ :=
  y.map (fun s => s / peakAbs y)

/-- The enhancement body: pre-emphasis, then peak normalization. -/
def enhanceSignal (y : List ℚ) : List ℚ :=
  normalize (preemphasis y)

theorem peakAbs_nonneg (y : List ℚ) : 0 ≤ peakAbs y := by
  induction y with
  | nil => simp [peakAbs]
  | cons x t ih =>
    simp only [peakAbs, List.foldr_cons] at *
    exact le_max_of_le_right ih

theorem peakAbs_map_div (y : List ℚ) (M : ℚ) (hM : 0 < M) :
    peakAbs (y.map (fun s => s / M)) = peakAbs y / M := by
  induction y with
  | nil => simp [peakAbs]
  | cons x t ih =>
    simp only [List.map_cons, peakAbs, List.foldr_cons] at *
    rw [ih, abs_div, abs_of_pos hM, max_div_div_right hM.le]

/-- Normalizing a signal with nonzero peak yields peak exactly 1. -/
theorem peakAbs_normalize (y : List ℚ) (h : peakAbs y ≠ 0) :
    peakAbs (normalize y) = 1 := by
  have hpos : 0 < peakAbs y := lt_of_le_of_ne (peakAbs_nonneg y) (Ne.symm h)
  unfold normalize
  rw [peakAbs_map_div y (peakAbs y) hpos, div_self h]

/-! ## The derived enhanced path (line 154)

`audio_path.replace(".wav", "_enhanced.wav")`: Python `str.replace`
replaces every non-overlapping occurrence, scanning left to right. -/

/-- Fuel-driven left-to-right replacement of every non-overlapping
occurrence of `pat` in a character list. -/
def replaceAllAux (pat rep : List Char) : Nat → List Char → List Char
  | 0, s => s
  | _ + 1, [] => []
  | f + 1, c :: s =>
    if pat.isPrefixOf (c :: s) then
      rep ++ replaceAllAux pat rep f (s.drop (pat.length - 1))
    else
      c :: replaceAllAux pat rep f s

/-- Python `s.replace(pat, rep)` for a non-empty pattern. -/
def replaceAll (s pat rep : String) : String :=
  ⟨replaceAllAux pat.data rep.data s.data.length s.data⟩

theorem replaceAllAux_nil (pat rep : List Char) (f : Nat) :
    replaceAllAux pat rep f [] = [] := by
  cases f <;> rfl

/-- On a path that is a dot-free stem followed by `".wav"`, the replacement
rewrites exactly the extension. -/
theorem replaceAllAux_stem (p : List Char) (f : Nat)
    (hf : p.length + 4 ≤ f) (hp : '.' ∉ p) :
    replaceAllAux (".wav" : String).data ("_enhanced.wav" : String).data f
        (p ++ (".wav" : String).data)
      = p ++ ("_enhanced.wav" : String).data := by
  induction p generalizing f with
  | nil =>
    match f, hf with
    | g + 4, _ =>
      show replaceAllAux _ _ (g + 3 + 1) _ = _
      rw [show ([] : List Char) ++ (".wav" : String).data = '.' :: "wav".data from rfl]
      rw [replaceAllAux]
      rw [if_pos (by decide)]
      simp [replaceAllAux_nil]
  | cons c p ih =>
    have hc : c ≠ '.' := fun hcc => hp (hcc ▸ List.mem_cons_self c p)
    obtain ⟨g, rfl⟩ : ∃ g, f = g + 1 := ⟨f - 1, by simp at hf; omega⟩
    rw [List.cons_append, replaceAllAux]
    rw [if_neg (by
      intro hpre
      rcases List.isPrefixOf_iff_prefix.mp hpre with ⟨t, ht⟩
      rw [show (".wav" : String).data = '.' :: ("wav" : String).data from rfl,
        List.cons_append] at ht
      simp only [List.cons.injEq] at ht
      exact hc ht.1.symm)]
    rw [ih g (by simp at hf ⊢; omega) (fun hm => hp (List.mem_cons_of_mem c hm)),
      List.cons_append]

/-- `audio_path.replace(".wav", "_enhanced.wav")` on a dot-free stem plus
`".wav"` extension inserts `"_enhanced"` before the extension. -/
theorem replaceAll_enhanced (stem : String) (hp : '.' ∉ stem.data) :
    replaceAll (stem ++ ".wav") ".wav" "_enhanced.wav" = stem ++ "_enhanced.wav" := by
  have hdata : (stem ++ ".wav").data = stem.data ++ (".wav" : String).data :=
    String.data_append _ _
  apply congrArg String.mk ∘ id
  show replaceAllAux _ _ (stem ++ ".wav").data.length (stem ++ ".wav").data
      = (stem ++ "_enhanced.wav").data
  rw [hdata, String.data_append]
  exact replaceAllAux_stem stem.data _
    (by simp [List.length_append, show (".wav" : String).data.length = 4 from rfl]) hp

/-! ## The extractor invocation (lines 65-87) -/

/-- The ffmpeg argument vector (lines 68-77): stream map `0:a:{audio_index}`,
`-vn` (no video), 16-bit linear PCM codec, 44.1 kHz, overwrite. -/
def extract_cmd (video_path : String) (audio_index : Nat) (output_path : String) :
    List String :=
  ["ffmpeg", "-i", video_path, "-map", "0:a:" ++ natRepr audio_index, "-vn",
   "-acodec", "pcm_s16le", "-ar", "44100", "-y", output_path]

/-- The result handling of `extract_audio_track` (lines 78-84) as a function
of the tool's exit code and stderr: non-zero exit shows the decoded stderr in
an error banner and returns `False`; otherwise returns `True`. -/
def extract_audio_track (rc : Int) (stderr : String) : Bool × List Msg :=
  if rc ≠ 0 then (false, [Msg.error ("Error extracting audio: " ++ stderr)])
  else (true, [])

/-! ## The session orchestrator (lines 92-207) -/

/-- Everything the environment decides for one session: temp-file names
handed out by `tempfile`, the external tools' behaviour, the user's
settings and selection, the decoded samples, whether a library call inside
the enhancement/conversion steps raises (and the exception text if so), and
whether each `os.unlink` succeeds. -/
structure Env where
  /-- name of the uploaded-video temp file (suffix `.mp4`) -/
  videoTmp : String
  /-- name of the extracted-audio temp file (suffix `.wav`) -/
  audioTmp : String
  /-- name of the converted-output temp file -/
  outTmp : String
  /-- `Path(uploaded_file.name).stem` -/
  origStem : String
  probeRc : Int
  probeStderr : String
  /-- result of `json.loads` on ffprobe stdout; `none` models a parse
  failure (or any other exception in the `try` body) -/
  probeParsed : Option ProbeData
  /-- `str(e)` for the exception caught in `get_audio_streams` -/
  probeErr : String
  /-- the selectbox position the user picked -/
  pick : Nat
  extractRc : Int
  extractStderr : String
  /-- sidebar enhancement toggle -/
  enhance : Bool
  /-- sidebar output format (`"mp3"`, `"wav"` or `"ogg"`) -/
  fmt : String
  /-- the samples `librosa.load` returns for the extracted WAV -/
  signal : List ℚ
  /-- `some msg` iff a library call in the enhancement block raises -/
  enhanceFault : Option String
  /-- `some msg` iff `AudioSegment.from_file` raises in the conversion block -/
  convertFault : Option String
  /-- whether `os.unlink` succeeds on each path -/
  unlinkOk : String → Bool

/-- The local path variables consulted by the cleanup block (line 202);
`none` means the variable was never assigned (`path_var in locals()` is
false). -/
structure Locals where
  video_path : Option String
  audio_path : Option String
  final_audio_path : Option String
  final_output_path : Option String

/-- Observable session state: temp files currently on disk, UI messages in
order, external-effect trace, and the artifact offered for download. -/
structure MidState where
  files : List String
  locals : Locals
  msgs : List Msg
  trace : List Event
  download : Option String

/-- Placeholder descriptor (never the value actually read: the orchestrator
indexes `audio_streams` only at a valid position). -/
def dummyStream : StreamInfo :=
  ⟨FieldVal.null, FieldVal.null, FieldVal.null, FieldVal.null, FieldVal.null,
   FieldVal.null, "", ""⟩

/-- The derived enhanced-audio path (line 154). -/
def enhancedPath (env : Env) : String :=
  replaceAll env.audioTmp ".wav" "_enhanced.wav"

/-- Success reporting (lines 169-186): success banner, stream-info banner,
audio player and download button with the language-suffixed filename. -/
def successPhase (env : Env) (streams : List StreamInfo) (idx : Nat)
    (st : MidState) : MidState :=
  let sel := streams.getD idx dummyStream
  let suffix := if sel.language ≠ "unknown" then "_" ++ sel.language else ""
  { st with
    msgs := st.msgs ++
      [Msg.success "Audio extracted successfully!",
       Msg.info ("Extracted audio: " ++ sel.language ++ " (" ++ sel.codec.render
         ++ ", " ++ sel.channels.render ++ " channels)")],
    download := some (env.origStem ++ suffix ++ "." ++ env.fmt) }

/-- Format conversion (lines 160-167): re-encode to a fresh temp file unless
the target format is already `"wav"`, in which case the existing path is
reused.  A raising library call inside the block propagates to the outer
`except` (line 188). -/
def convertPhase (env : Env) (streams : List StreamInfo) (idx : Nat)
    (st : MidState) : MidState :=
  if env.fmt ≠ "wav" then
    match env.convertFault with
    | some e => { st with msgs := st.msgs ++ [Msg.error ("Error extracting audio: " ++ e)] }
    | none =>
      successPhase env streams idx
        { st with
          trace := st.trace ++ [Event.exportAudio env.outTmp env.fmt],
          files := st.files ++ [env.outTmp],
          locals := { st.locals with final_output_path := some env.outTmp } }
  else
    successPhase env streams idx
      { st with locals := { st.locals with final_output_path := st.locals.final_audio_path } }

/-- Optional enhancement (lines 146-158): info banner, then pre-emphasis and
peak normalization written to the derived `_enhanced` path; the input WAV is
not deleted.  A raising library call propagates to the outer `except`. -/
def enhancePhase (env : Env) (streams : List StreamInfo) (idx : Nat)
    (st : MidState) : MidState :=
  if env.enhance then
    let st1 := { st with msgs := st.msgs ++ [Msg.info "Applying ML audio enhancement..."] }
    match env.enhanceFault with
    | some e => { st1 with msgs := st1.msgs ++ [Msg.error ("Error extracting audio: " ++ e)] }
    | none =>
      convertPhase env streams idx
        { st1 with
          trace := st1.trace ++ [Event.sfWrite (enhancedPath env) (enhanceSignal env.signal)],
          files := st1.files ++ [enhancedPath env],
          locals := { st1.locals with final_audio_path := some (enhancedPath env) } }
  else
    convertPhase env streams idx
      { st with locals := { st.locals with final_audio_path := some env.audioTmp } }

/-- The extract-button `try` body (lines 140-186): create the WAV temp file,
invoke ffmpeg on the selected index; on failure the rest of the chain is
skipped, on success `audio_path` is bound and the chain continues. -/
def extractPhase (env : Env) (streams : List StreamInfo) (st : MidState) : MidState :=
  let options := track_options streams
  let idx := selected_index options env.pick
  let st1 := { st with
    files := st.files ++ [env.audioTmp],
    trace := st.trace ++ [Event.run (extract_cmd env.videoTmp idx env.audioTmp)] }
  let r := extract_audio_track env.extractRc env.extractStderr
  let st2 := { st1 with msgs := st1.msgs ++ r.2 }
  if r.1 then
    enhancePhase env streams idx
      { st2 with locals := { st2.locals with audio_path := some env.audioTmp } }
  else st2

/-- One deletion attempt of the cleanup loop (lines 202-207): skip unbound
variables and missing files; a failing `os.unlink` only emits a warning. -/
def cleanup1 (unlinkOk : String → Bool) (name : String) (p? : Option String)
    (acc : List String × List Msg) : List String × List Msg :=
  match p? with
  | none => acc
  | some p =>
    if p ∈ acc.1 then
      if unlinkOk p then (acc.1.erase p, acc.2)
      else (acc.1, acc.2 ++ [Msg.warning ("Could not delete " ++ name)])
    else acc

/-- The `finally` cleanup over the four tracked path variables, in source
order. -/
def cleanup (unlinkOk : String → Bool) (l : Locals)
    (acc : List String × List Msg) : List String × List Msg :=
  cleanup1 unlinkOk "final_output_path" l.final_output_path
    (cleanup1 unlinkOk "final_audio_path" l.final_audio_path
      (cleanup1 unlinkOk "audio_path" l.audio_path
        (cleanup1 unlinkOk "video_path" l.video_path acc)))

/-- Apply the `finally` block to the state the `try`/`except` left behind. -/
def runCleanup (unlinkOk : String → Bool) (st : MidState) : MidState :=
  let r := cleanup unlinkOk st.locals (st.files, st.msgs)
  { st with files := r.1, msgs := r.2 }

/-- The probe call and its messages for this session. -/
def probeResult (env : Env) : List StreamInfo × List Msg :=
  get_audio_streams env.probeRc env.probeStderr env.probeParsed env.probeErr

/-- Session state right after upload and probing (lines 104-110): the video
temp file exists, `video_path` is bound, ffprobe has run. -/
def baseState (env : Env) : MidState :=
  { files := [env.videoTmp],
    locals := { video_path := some env.videoTmp, audio_path := none,
                final_audio_path := none, final_output_path := none },
    msgs := (probeResult env).2,
    trace := [Event.run (ffprobe_cmd env.videoTmp)],
    download := none }

/-- State at the end of the `try`/`except`, before the `finally` block. -/
def tryState (env : Env) : MidState :=
  extractPhase env (probeResult env).1 (baseState env)

/-- One whole session with the extract button pressed when tracks exist:
empty stream list (probe failure or zero audio streams) stops before track
selection with an error banner and — notably — no cleanup; otherwise the
try/except/finally of lines 140-207 runs. -/
def runSession (env : Env) : MidState :=
  if (probeResult env).1 = [] then
    { baseState env with
      msgs := (baseState env).msgs ++ [Msg.error "No audio tracks found in the video file."] }
  else
    runCleanup env.unlinkOk (tryState env)

/-! ## Structural lemmas about the phases -/

theorem successPhase_files (env : Env) (streams : List StreamInfo) (idx : Nat)
    (st : MidState) : (successPhase env streams idx st).files = st.files := rfl

theorem successPhase_trace (env : Env) (streams : List StreamInfo) (idx : Nat)
    (st : MidState) : (successPhase env streams idx st).trace = st.trace := rfl

theorem successPhase_locals (env : Env) (streams : List StreamInfo) (idx : Nat)
    (st : MidState) : (successPhase env streams idx st).locals = st.locals := rfl

theorem extract_audio_track_fail (rc : Int) (stderr : String) (h : rc ≠ 0) :
    extract_audio_track rc stderr
      = (false, [Msg.error ("Error extracting audio: " ++ stderr)]) := by
  simp [extract_audio_track, h]

theorem extract_audio_track_ok (rc : Int) (stderr : String) (h : rc = 0) :
    extract_audio_track rc stderr = (true, []) := by
  simp [extract_audio_track, h]

/-- The conversion step only ever appends `outTmp` to the files and an
`exportAudio` event to the trace. -/
theorem convertPhase_ext (env : Env) (streams : List StreamInfo) (idx : Nat)
    (st : MidState) :
    ∃ tf tt, (convertPhase env streams idx st).files = st.files ++ tf
      ∧ (convertPhase env streams idx st).trace = st.trace ++ tt
      ∧ List.Sublist tf [env.outTmp]
      ∧ ∀ c, Event.run c ∉ tt := by
  unfold convertPhase
  by_cases hf : env.fmt = "wav"
  · rw [if_neg (fun hne => hne hf)]
    exact ⟨[], [], by simp [successPhase_files], by simp [successPhase_trace], by simp, by simp⟩
  · rw [if_pos hf]
    cases env.convertFault with
    | some e => exact ⟨[], [], by simp, by simp, by simp, by simp⟩
    | none =>
      refine ⟨[env.outTmp], [Event.exportAudio env.outTmp env.fmt], ?_, ?_, ?_, ?_⟩ <;>
        simp [successPhase_files, successPhase_trace]

/-- The enhancement step only ever appends the enhanced path and `outTmp` to
the files, and `sfWrite`/`exportAudio` events to the trace. -/
theorem enhancePhase_ext (env : Env) (streams : List StreamInfo) (idx : Nat)
    (st : MidState) :
    ∃ tf tt, (enhancePhase env streams idx st).files = st.files ++ tf
      ∧ (enhancePhase env streams idx st).trace = st.trace ++ tt
      ∧ List.Sublist tf [enhancedPath env, env.outTmp]
      ∧ ∀ c, Event.run c ∉ tt := by
  unfold enhancePhase
  by_cases he : env.enhance = true
  · rw [if_pos he]
    cases env.enhanceFault with
    | some e => exact ⟨[], [], by simp, by simp, by simp, by simp⟩
    | none =>
      obtain ⟨tf, tt, h1, h2, h3, h4⟩ := convertPhase_ext env streams idx _
      refine ⟨[enhancedPath env] ++ tf,
        [Event.sfWrite (enhancedPath env) (enhanceSignal env.signal)] ++ tt, ?_, ?_, ?_, ?_⟩
      · rw [h1]; simp [List.append_assoc]
      · rw [h2]; simp [List.append_assoc]
      · simpa using List.Sublist.append_left h3 [enhancedPath env]
      · intro c
        simp only [List.mem_append, List.mem_singleton]
        rintro (h | h)
        · exact Event.noConfusion h
        · exact h4 c h
  · rw [if_neg he]
    obtain ⟨tf, tt, h1, h2, h3, h4⟩ := convertPhase_ext env streams idx _
    refine ⟨tf, tt, by rw [h1], by rw [h2], ?_, h4⟩
    exact h3.trans (by simp)

/-- The state at the end of the `try`/`except`: files and trace of the base
state extended by the WAV temp, the ffmpeg invocation on the selected
index, and whatever the later phases appended (never another subprocess
invocation, never more than the enhanced path and the conversion output). -/
theorem tryState_ext (env : Env) :
    ∃ tf tt, (tryState env).files = [env.videoTmp, env.audioTmp] ++ tf
      ∧ (tryState env).trace
        = [Event.run (ffprobe_cmd env.videoTmp),
           Event.run (extract_cmd env.videoTmp
             (selected_index (track_options (probeResult env).1) env.pick) env.audioTmp)] ++ tt
      ∧ List.Sublist tf [enhancedPath env, env.outTmp]
      ∧ ∀ c, Event.run c ∉ tt := by
  unfold tryState extractPhase
  by_cases hrc : env.extractRc = 0
  · rw [extract_audio_track_ok _ _ hrc]
    rw [if_pos rfl]
    obtain ⟨tf, tt, h1, h2, h3, h4⟩ := enhancePhase_ext env (probeResult env).1
      (selected_index (track_options (probeResult env).1) env.pick) _
    exact ⟨tf, tt, by rw [h1]; simp [baseState], by rw [h2]; simp [baseState], h3, h4⟩
  · rw [extract_audio_track_fail _ _ hrc]
    rw [if_neg (by simp)]
    exact ⟨[], [], by simp [baseState], by simp [baseState], by simp, by simp⟩

theorem runCleanup_trace (unlinkOk : String → Bool) (st : MidState) :
    (runCleanup unlinkOk st).trace = st.trace := rfl

theorem runCleanup_download (unlinkOk : String → Bool) (st : MidState) :
    (runCleanup unlinkOk st).download = st.download := rfl

theorem runCleanup_locals (unlinkOk : String → Bool) (st : MidState) :
    (runCleanup unlinkOk st).locals = st.locals := rfl

/-! ## Structural lemmas about the cleanup loop -/

theorem cleanup1_mem (unlinkOk : String → Bool) (name : String) (p? : Option String)
    (acc : List String × List Msg) (q : String)
    (h : q ∈ (cleanup1 unlinkOk name p? acc).1) : q ∈ acc.1 := by
  unfold cleanup1 at h
  cases p? with
  | none => exact h
  | some p =>
    by_cases hp : p ∈ acc.1
    · simp only [hp, if_true] at h
      by_cases ho : unlinkOk p = true
      · simp only [ho, if_true] at h
        exact List.mem_of_mem_erase h
      · simp only [Bool.not_eq_true] at ho
        simp only [ho, Bool.false_eq_true, if_false] at h
        exact h
    · simpa only [hp, if_false] using h

theorem cleanup1_nodup (unlinkOk : String → Bool) (name : String) (p? : Option String)
    (acc : List String × List Msg) (h : acc.1.Nodup) :
    (cleanup1 unlinkOk name p? acc).1.Nodup := by
  unfold cleanup1
  cases p? with
  | none => exact h
  | some p =>
    by_cases hp : p ∈ acc.1
    · simp only [hp, if_true]
      by_cases ho : unlinkOk p = true
      · simpa only [ho, if_true] using h.erase p
      · simp only [Bool.not_eq_true] at ho
        simpa only [ho, Bool.false_eq_true, if_false] using h
    · simpa only [hp, if_false] using h

/-- After a deletion attempt with a succeeding `os.unlink`, the attempted
path is gone (assuming no duplicate entries on the file list). -/
theorem cleanup1_self (unlinkOk : String → Bool) (name : String) (p : String)
    (acc : List String × List Msg) (hnd : acc.1.Nodup) (hok : unlinkOk p = true) :
    p ∉ (cleanup1 unlinkOk name (some p) acc).1 := by
  unfold cleanup1
  by_cases hp : p ∈ acc.1
  · simp only [hp, if_true, hok, if_true]
    exact hnd.not_mem_erase
  · simpa only [hp, if_false] using hp

theorem cleanup1_msgs (unlinkOk : String → Bool) (name : String) (p? : Option String)
    (acc : List String × List Msg) :
    ∃ w, (cleanup1 unlinkOk name p? acc).2 = acc.2 ++ w
      ∧ ∀ m ∈ w, ∃ s, m = Msg.warning s := by
  unfold cleanup1
  cases p? with
  | none => exact ⟨[], by simp, by simp⟩
  | some p =>
    by_cases hp : p ∈ acc.1
    · by_cases ho : unlinkOk p = true
      · exact ⟨[], by simp [hp, ho], by simp⟩
      · simp only [Bool.not_eq_true] at ho
        exact ⟨[Msg.warning ("Could not delete " ++ name)],
          by simp [hp, ho], by simp⟩
    · exact ⟨[], by simp [hp], by simp⟩

theorem cleanup_mem (unlinkOk : String → Bool) (l : Locals)
    (acc : List String × List Msg) (q : String)
    (h : q ∈ (cleanup unlinkOk l acc).1) : q ∈ acc.1 := by
  unfold cleanup at h
  exact cleanup1_mem _ _ _ _ _ (cleanup1_mem _ _ _ _ _
    (cleanup1_mem _ _ _ _ _ (cleanup1_mem _ _ _ _ _ h)))

/-- Teardown messages are only appended warnings: the messages accumulated
before the `finally` block survive as a prefix. -/
theorem cleanup_msgs (unlinkOk : String → Bool) (l : Locals)
    (acc : List String × List Msg) :
    ∃ w, (cleanup unlinkOk l acc).2 = acc.2 ++ w
      ∧ ∀ m ∈ w, ∃ s, m = Msg.warning s := by
  unfold cleanup
  obtain ⟨w1, e1, h1⟩ := cleanup1_msgs unlinkOk "video_path" l.video_path acc
  obtain ⟨w2, e2, h2⟩ := cleanup1_msgs unlinkOk "audio_path" l.audio_path
    (cleanup1 unlinkOk "video_path" l.video_path acc)
  obtain ⟨w3, e3, h3⟩ := cleanup1_msgs unlinkOk "final_audio_path" l.final_audio_path
    (cleanup1 unlinkOk "audio_path" l.audio_path
      (cleanup1 unlinkOk "video_path" l.video_path acc))
  obtain ⟨w4, e4, h4⟩ := cleanup1_msgs unlinkOk "final_output_path" l.final_output_path
    (cleanup1 unlinkOk "final_audio_path" l.final_audio_path
      (cleanup1 unlinkOk "audio_path" l.audio_path
        (cleanup1 unlinkOk "video_path" l.video_path acc)))
  refine ⟨w1 ++ w2 ++ w3 ++ w4, ?_, ?_⟩
  · rw [e4, e3, e2, e1]
    simp [List.append_assoc]
  · intro m hm
    simp only [List.mem_append] at hm
    rcases hm with ((hm | hm) | hm) | hm
    exacts [h1 m hm, h2 m hm, h3 m hm, h4 m hm]

/-- With all `os.unlink` calls succeeding and no duplicate file entries, the
`finally` block removes every path bound to one of the four tracked
variables. -/
theorem cleanup_removes (unlinkOk : String → Bool) (l : Locals)
    (acc : List String × List Msg) (hnd : acc.1.Nodup)
    (hok : ∀ p, unlinkOk p = true) :
    (∀ p, l.video_path = some p → p ∉ (cleanup unlinkOk l acc).1)
    ∧ (∀ p, l.audio_path = some p → p ∉ (cleanup unlinkOk l acc).1)
    ∧ (∀ p, l.final_audio_path = some p → p ∉ (cleanup unlinkOk l acc).1)
    ∧ (∀ p, l.final_output_path = some p → p ∉ (cleanup unlinkOk l acc).1) := by
  have nd1 := cleanup1_nodup unlinkOk "video_path" l.video_path acc hnd
  have nd2 := cleanup1_nodup unlinkOk "audio_path" l.audio_path _ nd1
  have nd3 := cleanup1_nodup unlinkOk "final_audio_path" l.final_audio_path _ nd2
  refine ⟨?_, ?_, ?_, ?_⟩ <;> intro p hv <;> unfold cleanup <;> rw [hv] <;> intro hmem
  · exact cleanup1_self unlinkOk "video_path" p acc hnd (hok p)
      (cleanup1_mem _ _ _ _ _ (cleanup1_mem _ _ _ _ _ (cleanup1_mem _ _ _ _ _ hmem)))
  · exact cleanup1_self unlinkOk "audio_path" p _ nd1 (hok p)
      (cleanup1_mem _ _ _ _ _ (cleanup1_mem _ _ _ _ _ hmem))
  · exact cleanup1_self unlinkOk "final_audio_path" p _ nd2 (hok p)
      (cleanup1_mem _ _ _ _ _ hmem)
  · exact cleanup1_self unlinkOk "final_output_path" p _ nd3 (hok p) hmem

/-! ## Branch equations for the orchestrator -/

/-- The index handed to the extractor for this session. -/
def sessIdx (env : Env) : Nat :=
  selected_index (track_options (probeResult env).1) env.pick

/-- Session state after a successful ffmpeg extraction: both temp files on
disk, `video_path` and `audio_path` bound. -/
def postExtractState (env : Env) : MidState :=
  { files := [env.videoTmp, env.audioTmp],
    locals := { video_path := some env.videoTmp, audio_path := some env.audioTmp,
                final_audio_path := none, final_output_path := none },
    msgs := (probeResult env).2,
    trace := [Event.run (ffprobe_cmd env.videoTmp),
              Event.run (extract_cmd env.videoTmp (sessIdx env) env.audioTmp)],
    download := none }

theorem tryState_ok_eq (env : Env) (hrc : env.extractRc = 0) :
    tryState env
      = enhancePhase env (probeResult env).1 (sessIdx env) (postExtractState env) := by
  unfold tryState extractPhase
  rw [extract_audio_track_ok _ _ hrc, if_pos rfl]
  simp [postExtractState, baseState, sessIdx]

theorem tryState_fail_eq (env : Env) (hrc : env.extractRc ≠ 0) :
    tryState env
      = { postExtractState env with
          locals := { video_path := some env.videoTmp, audio_path := none,
                      final_audio_path := none, final_output_path := none },
          msgs := (probeResult env).2
            ++ [Msg.error ("Error extracting audio: " ++ env.extractStderr)] } := by
  unfold tryState extractPhase
  rw [extract_audio_track_fail _ _ hrc, if_neg (by simp)]
  simp [postExtractState, baseState, sessIdx]

theorem enhancePhase_off (env : Env) (streams : List StreamInfo) (idx : Nat)
    (st : MidState) (he : env.enhance = false) :
    enhancePhase env streams idx st
      = convertPhase env streams idx
          { st with locals := { st.locals with final_audio_path := some env.audioTmp } } := by
  unfold enhancePhase
  rw [if_neg (by simp [he])]

theorem enhancePhase_on (env : Env) (streams : List StreamInfo) (idx : Nat)
    (st : MidState) (he : env.enhance = true) (hf : env.enhanceFault = none) :
    enhancePhase env streams idx st
      = convertPhase env streams idx
          { st with
            msgs := st.msgs ++ [Msg.info "Applying ML audio enhancement..."],
            trace := st.trace ++ [Event.sfWrite (enhancedPath env) (enhanceSignal env.signal)],
            files := st.files ++ [enhancedPath env],
            locals := { st.locals with final_audio_path := some (enhancedPath env) } } := by
  unfold enhancePhase
  rw [if_pos he, hf]

theorem convertPhase_wav (env : Env) (streams : List StreamInfo) (idx : Nat)
    (st : MidState) (hf : env.fmt = "wav") :
    convertPhase env streams idx st
      = successPhase env streams idx
          { st with locals := { st.locals with final_output_path := st.locals.final_audio_path } } := by
  unfold convertPhase
  rw [if_neg (fun hne => hne hf)]

theorem runSession_empty (env : Env) (h : (probeResult env).1 = []) :
    runSession env
      = { baseState env with
          msgs := (baseState env).msgs
            ++ [Msg.error "No audio tracks found in the video file."] } := by
  unfold runSession
  rw [if_pos h]

theorem runSession_nonempty (env : Env) (h : (probeResult env).1 ≠ []) :
    runSession env = runCleanup env.unlinkOk (tryState env) := by
  unfold runSession
  rw [if_neg h]

theorem runCleanup_files (unlinkOk : String → Bool) (st : MidState) :
    (runCleanup unlinkOk st).files
      = (cleanup unlinkOk st.locals (st.files, st.msgs)).1 := rfl

theorem runCleanup_msgs (unlinkOk : String → Bool) (st : MidState) :
    (runCleanup unlinkOk st).msgs
      = (cleanup unlinkOk st.locals (st.files, st.msgs)).2 := rfl

/-- `get_audio_streams` reports only error banners. -/
theorem probeResult_msgs (env : Env) :
    ∀ m ∈ (probeResult env).2, ∃ s, m = Msg.error s := by
  unfold probeResult get_audio_streams
  by_cases h : env.probeRc ≠ 0
  · rw [if_pos h]
    intro m hm
    simp at hm
    exact ⟨_, hm⟩
  · rw [if_neg h]
    cases env.probeParsed with
    | none =>
      intro m hm
      simp at hm
      exact ⟨_, hm⟩
    | some d => simp

/-! ## The claims -/

/-- Empty JSON stream entry: every raw field and the tag map are absent. -/
def emptyJsonStream : JsonStream := ⟨none, none, none, none, none, none, none⟩

/-- C3 (counterexample): the claim says an absent `index` field is rendered
as the literal string `"unknown"`, but `stream.get('index')` has no default,
so the descriptor's `index` is Python `None` (null), not `"unknown"`. -/
theorem C3_index_null_counterexample :
    (streamInfo emptyJsonStream).index = FieldVal.null
    ∧ (streamInfo emptyJsonStream).index ≠ FieldVal.str "unknown" := by
  constructor <;> decide

/-- C3 (amended): for every stream entry, each of the descriptor fields
`codec`, `sample_rate`, `channels`, `duration`, `bit_rate`, `language` and
`title` (including when the tag map itself is missing) is rendered as the
literal string `"unknown"` when absent from the tool's output — but the
`index` field, read with no default, is rendered as null (`None`) when
absent, never as `"unknown"`. -/
theorem C3_unknown_fields_amended (s : JsonStream) :
    (s.codec_name = none → (streamInfo s).codec = FieldVal.str "unknown")
    ∧ (s.sample_rate = none → (streamInfo s).sample_rate = FieldVal.str "unknown")
    ∧ (s.channels = none → (streamInfo s).channels = FieldVal.str "unknown")
    ∧ (s.duration = none → (streamInfo s).duration = FieldVal.str "unknown")
    ∧ (s.bit_rate = none → (streamInfo s).bit_rate = FieldVal.str "unknown")
    ∧ (s.tags = none →
        (streamInfo s).language = "unknown" ∧ (streamInfo s).title = "unknown")
    ∧ (∀ m, s.tags = some m → m.lookup "language" = none →
        (streamInfo s).language = "unknown")
    ∧ (∀ m, s.tags = some m → m.lookup "title" = none →
        (streamInfo s).title = "unknown")
    ∧ (s.index = none → (streamInfo s).index = FieldVal.null) := by
  refine ⟨fun h => ?_, fun h => ?_, fun h => ?_, fun h => ?_, fun h => ?_,
    fun h => ⟨?_, ?_⟩, fun m h hl => ?_, fun m h hl => ?_, fun h => ?_⟩ <;>
    simp [streamInfo, *]

theorem C3_unknown_fields_witness :
    (streamInfo emptyJsonStream).codec = FieldVal.str "unknown"
    ∧ (streamInfo emptyJsonStream).sample_rate = FieldVal.str "unknown"
    ∧ (streamInfo emptyJsonStream).channels = FieldVal.str "unknown"
    ∧ (streamInfo emptyJsonStream).duration = FieldVal.str "unknown"
    ∧ (streamInfo emptyJsonStream).bit_rate = FieldVal.str "unknown"
    ∧ (streamInfo emptyJsonStream).language = "unknown"
    ∧ (streamInfo emptyJsonStream).title = "unknown"
    ∧ (streamInfo emptyJsonStream).index = FieldVal.null := by
  obtain ⟨h1, h2, h3, h4, h5, h6, _, _, h9⟩ := C3_unknown_fields_amended emptyJsonStream
  exact ⟨h1 rfl, h2 rfl, h3 rfl, h4 rfl, h5 rfl, (h6 rfl).1, (h6 rfl).2, h9 rfl⟩

/-- C5: a non-zero ffprobe exit or a parse failure each report an error and
yield an empty descriptor sequence, and the caller treats any empty sequence
— probe failure or genuinely zero audio streams alike — as "no audio
tracks", never invoking the extractor. -/
theorem C5_probe_empty (env : Env) :
    (env.probeRc ≠ 0 →
      (probeResult env).1 = []
      ∧ Msg.error ("Error analyzing video: " ++ env.probeStderr) ∈ (probeResult env).2)
    ∧ (env.probeRc = 0 → env.probeParsed = none →
      (probeResult env).1 = []
      ∧ Msg.error ("Error getting audio streams: " ++ env.probeErr) ∈ (probeResult env).2)
    ∧ ((probeResult env).1 = [] →
      Msg.error "No audio tracks found in the video file." ∈ (runSession env).msgs
      ∧ (∀ c, Event.run c ∈ (runSession env).trace → c = ffprobe_cmd env.videoTmp)
      ∧ (∀ i out, Event.run (extract_cmd env.videoTmp i out) ∉ (runSession env).trace)) := by
  refine ⟨fun h => ?_, fun h hp => ?_, fun h => ⟨?_, ?_, ?_⟩⟩
  · constructor <;> simp [probeResult, get_audio_streams, h]
  · constructor <;> simp [probeResult, get_audio_streams, h, hp]
  · rw [runSession_empty env h]
    simp [baseState]
  · rw [runSession_empty env h]
    intro c hc
    simp only [baseState, List.mem_singleton] at hc
    exact (Event.run.injEq _ _).mp hc
  · rw [runSession_empty env h]
    intro i out hc
    simp only [baseState, List.mem_singleton] at hc
    have := (Event.run.injEq _ _).mp hc
    simp [extract_cmd, ffprobe_cmd] at this

/-- C4: on a non-zero ffmpeg exit the tool's stderr text is surfaced
verbatim (as the suffix of the error banner), the extractor returns failure,
and the rest of the chain is aborted: no enhancement write, no conversion,
no success banner and no download offer. -/
theorem C4_extraction_failure (env : Env)
    (hne : (probeResult env).1 ≠ []) (hrc : env.extractRc ≠ 0) :
    (extract_audio_track env.extractRc env.extractStderr).1 = false
    ∧ Msg.error ("Error extracting audio: " ++ env.extractStderr) ∈ (runSession env).msgs
    ∧ (∀ p d, Event.sfWrite p d ∉ (runSession env).trace)
    ∧ (∀ p f, Event.exportAudio p f ∉ (runSession env).trace)
    ∧ (runSession env).download = none
    ∧ (∀ s, Msg.success s ∉ (runSession env).msgs) := by
  have hts := tryState_fail_eq env hrc
  rw [runSession_nonempty env hne]
  obtain ⟨w, hw, hwm⟩ := cleanup_msgs env.unlinkOk (tryState env).locals
    ((tryState env).files, (tryState env).msgs)
  refine ⟨?_, ?_, ?_, ?_, ?_, ?_⟩
  · rw [extract_audio_track_fail _ _ hrc]
  · rw [runCleanup_msgs, hw]
    apply List.mem_append_left
    rw [hts]
    simp
  · intro p d hc
    rw [runCleanup_trace, hts] at hc
    simp [postExtractState] at hc
  · intro p f hc
    rw [runCleanup_trace, hts] at hc
    simp [postExtractState] at hc
  · rw [runCleanup_download, hts]
    rfl
  · intro s hs
    rw [runCleanup_msgs, hw] at hs
    rcases List.mem_append.mp hs with hs | hs
    · rw [hts] at hs
      simp only [List.mem_append, List.mem_singleton] at hs
      rcases hs with hs | hs
      · obtain ⟨t, ht⟩ := probeResult_msgs env _ hs
        exact Msg.noConfusion ht
      · exact Msg.noConfusion hs
    · obtain ⟨t, ht⟩ := hwm _ hs
      exact Msg.noConfusion ht

/-- A typical probed stream entry with full metadata. -/
def jsEng : JsonStream :=
  ⟨some (FieldVal.num 1), some (FieldVal.str "aac"), some (FieldVal.str "48000"),
   some (FieldVal.num 2), some (FieldVal.str "10.0"), some (FieldVal.str "128000"),
   some [("language", "eng"), ("title", "Main")]⟩

/-- A second stream entry, German audio. -/
def jsDeu : JsonStream :=
  ⟨some (FieldVal.num 2), some (FieldVal.str "aac"), some (FieldVal.str "48000"),
   some (FieldVal.num 2), some (FieldVal.str "9.9"), some (FieldVal.str "128000"),
   some [("language", "deu")]⟩

/-- Session where ffmpeg exits 1. -/
def envExtractFail : Env :=
  { videoTmp := "/tmp/video4.mp4", audioTmp := "/tmp/audio4.wav",
    outTmp := "/tmp/out4.mp3", origStem := "movie",
    probeRc := 0, probeStderr := "", probeParsed := some ⟨some [jsEng]⟩, probeErr := "",
    pick := 0, extractRc := 1, extractStderr := "Stream map matches no streams.",
    enhance := true, fmt := "mp3", signal := [],
    enhanceFault := none, convertFault := none, unlinkOk := fun _ => true }

theorem C4_extraction_failure_witness :
    (extract_audio_track envExtractFail.extractRc envExtractFail.extractStderr).1 = false
    ∧ Msg.error ("Error extracting audio: " ++ envExtractFail.extractStderr)
        ∈ (runSession envExtractFail).msgs
    ∧ (∀ p d, Event.sfWrite p d ∉ (runSession envExtractFail).trace)
    ∧ (∀ p f, Event.exportAudio p f ∉ (runSession envExtractFail).trace)
    ∧ (runSession envExtractFail).download = none
    ∧ (∀ s, Msg.success s ∉ (runSession envExtractFail).msgs) :=
  C4_extraction_failure envExtractFail (by decide) (by decide)

/-- Session where ffprobe exits 1. -/
def envProbeFail : Env :=
  { videoTmp := "/tmp/video5.mp4", audioTmp := "/tmp/audio5.wav",
    outTmp := "/tmp/out5.mp3", origStem := "movie",
    probeRc := 1, probeStderr := "Invalid data found when processing input",
    probeParsed := none, probeErr := "", pick := 0, extractRc := 0, extractStderr := "",
    enhance := true, fmt := "mp3", signal := [],
    enhanceFault := none, convertFault := none, unlinkOk := fun _ => true }

theorem C5_probe_empty_witness :
    (probeResult envProbeFail).1 = []
    ∧ Msg.error ("Error analyzing video: " ++ envProbeFail.probeStderr)
        ∈ (probeResult envProbeFail).2
    ∧ Msg.error "No audio tracks found in the video file." ∈ (runSession envProbeFail).msgs := by
  have h := C5_probe_empty envProbeFail
  obtain ⟨h1, h2⟩ := h.1 (by decide)
  exact ⟨h1, h2, (h.2.2 h1).1⟩

/-- C8: the extractor is always invoked with stream map `0:a:N` where `N` is
the selected entry's position in the UI-ordered track list (which, labels
being distinct, is exactly the position the user picked), video disabled,
16-bit linear PCM at 44.1 kHz, and overwrite; and the session issues no
other subprocess invocation besides ffprobe. -/
theorem C8_extractor_invocation (env : Env)
    (hk : env.pick < (probeResult env).1.length) :
    sessIdx env = env.pick
    ∧ Event.run (extract_cmd env.videoTmp env.pick env.audioTmp) ∈ (runSession env).trace
    ∧ (∀ c, Event.run c ∈ (runSession env).trace →
        c = ffprobe_cmd env.videoTmp ∨ c = extract_cmd env.videoTmp env.pick env.audioTmp)
    ∧ extract_cmd env.videoTmp env.pick env.audioTmp
      = ["ffmpeg", "-i", env.videoTmp, "-map", "0:a:" ++ natRepr env.pick, "-vn",
         "-acodec", "pcm_s16le", "-ar", "44100", "-y", env.audioTmp] := by
  have hne : (probeResult env).1 ≠ [] := by
    intro h
    rw [h] at hk
    simp at hk
  have hidx : selected_index (track_options (probeResult env).1) env.pick = env.pick :=
    selected_index_eq _ _ hk
  rw [runSession_nonempty env hne]
  obtain ⟨tf, tt, _, h2, _, h4⟩ := tryState_ext env
  rw [hidx] at h2
  refine ⟨hidx, ?_, ?_, rfl⟩
  · rw [runCleanup_trace, h2]
    simp
  · intro c hc
    rw [runCleanup_trace, h2] at hc
    rcases List.mem_append.mp hc with hc | hc
    · simp only [List.mem_cons, List.mem_singleton, List.not_mem_nil, or_false] at hc
      rcases hc with hc | hc
      · exact Or.inl ((Event.run.injEq _ _).mp hc)
      · exact Or.inr ((Event.run.injEq _ _).mp hc)
    · exact absurd hc (h4 c)

/-- Session with two audio tracks where the user picks the second. -/
def envPick : Env :=
  { videoTmp := "/tmp/video8.mp4", audioTmp := "/tmp/audio8.wav",
    outTmp := "/tmp/out8.mp3", origStem := "movie",
    probeRc := 0, probeStderr := "", probeParsed := some ⟨some [jsEng, jsDeu]⟩,
    probeErr := "", pick := 1, extractRc := 0, extractStderr := "",
    enhance := false, fmt := "mp3", signal := [],
    enhanceFault := none, convertFault := none, unlinkOk := fun _ => true }

theorem C8_extractor_invocation_witness :
    sessIdx envPick = envPick.pick
    ∧ Event.run (extract_cmd envPick.videoTmp envPick.pick envPick.audioTmp)
        ∈ (runSession envPick).trace := by
  have h := C8_extractor_invocation envPick (by decide)
  exact ⟨h.1, h.2.1⟩

/-- A descriptor whose metadata (language, title, channels, codec) will be
shared by two distinct streams. -/
def dupStream : StreamInfo :=
  ⟨FieldVal.num 1, FieldVal.str "aac", FieldVal.str "48000", FieldVal.num 2,
   FieldVal.str "10.0", FieldVal.str "128000", "eng", "Commentary"⟩

/-- C10 (counterexample): with two distinct streams of identical language,
title, channel count and codec, selecting the later entry resolves to its
own index 1, not to the index 0 of the first occurrence — the labels are not
identical, because each begins with its `"Track {i}"` ordinal. -/
theorem C10_duplicate_metadata_counterexample :
    selected_index (track_options [dupStream, dupStream]) 1 = 1
    ∧ track_label 0 dupStream ≠ track_label 1 dupStream := by
  constructor <;> decide

/-- C10 (amended): labels embed the entry's ordinal, so two distinct
positions never produce identical display labels, and resolving the selected
label with `list.index` always yields the selected entry's own position —
the stream the user chose is the one extracted. -/
theorem C10_selection_amended (streams : List StreamInfo) (k : Nat)
    (hk : k < streams.length) :
    selected_index (track_options streams) k = k
    ∧ ∀ i j : Nat, ∀ s t : StreamInfo, i ≠ j → track_label i s ≠ track_label j t :=
  ⟨selected_index_eq streams k hk,
   fun i j s t hij h => hij (track_label_inj_idx i j s t h)⟩

theorem C10_selection_witness :
    selected_index (track_options [dupStream, dupStream]) 0 = 0
    ∧ ∀ i j : Nat, ∀ s t : StreamInfo, i ≠ j → track_label i s ≠ track_label j t :=
  C10_selection_amended [dupStream, dupStream] 0 (by decide)

/-- C1 (amended): on the exit paths of the extract attempt — success and
any exception in the `try` body — the `finally` block attempts to delete
every path bound to the four tracked variables (with unique temp names and
succeeding unlinks, none of them is left on disk), and teardown only appends
warnings: the messages, download offer and trace of the primary outcome are
preserved.  On the no-audio-tracks exit path, however, no cleanup runs at
all (see the counterexample: the uploaded video's temp file is left on
disk). -/
theorem C1_cleanup_amended (env : Env)
    (hne : (probeResult env).1 ≠ [])
    (hnd : [env.videoTmp, env.audioTmp, enhancedPath env, env.outTmp].Nodup) :
    ((∀ p, env.unlinkOk p = true) →
      ∀ v ∈ [(tryState env).locals.video_path, (tryState env).locals.audio_path,
             (tryState env).locals.final_audio_path, (tryState env).locals.final_output_path],
        ∀ p, v = some p → p ∉ (runSession env).files)
    ∧ (∃ w, (runSession env).msgs = (tryState env).msgs ++ w
        ∧ ∀ m ∈ w, ∃ s, m = Msg.warning s)
    ∧ (runSession env).download = (tryState env).download
    ∧ (runSession env).trace = (tryState env).trace := by
  rw [runSession_nonempty env hne]
  have hndf : (tryState env).files.Nodup := by
    obtain ⟨tf, tt, h1, _, h3, _⟩ := tryState_ext env
    rw [h1]
    exact hnd.sublist (List.Sublist.append_left h3 [env.videoTmp, env.audioTmp])
  refine ⟨?_, ?_, rfl, rfl⟩
  · intro hok v hv p hp
    obtain ⟨h1, h2, h3, h4⟩ := cleanup_removes env.unlinkOk (tryState env).locals
      ((tryState env).files, (tryState env).msgs) hndf hok
    rw [runCleanup_files]
    simp only [List.mem_cons, List.not_mem_nil, or_false] at hv
    rcases hv with hv | hv | hv | hv <;> subst hv
    · exact h1 p hp
    · exact h2 p hp
    · exact h3 p hp
    · exact h4 p hp
  · obtain ⟨w, hw, hwm⟩ := cleanup_msgs env.unlinkOk (tryState env).locals
      ((tryState env).files, (tryState env).msgs)
    exact ⟨w, by rw [runCleanup_msgs, hw], hwm⟩

/-- Session whose video has no audio streams at all. -/
def envNoTracks : Env :=
  { videoTmp := "/tmp/video1.mp4", audioTmp := "/tmp/audio1.wav",
    outTmp := "/tmp/out1.mp3", origStem := "clip",
    probeRc := 0, probeStderr := "", probeParsed := some ⟨some []⟩, probeErr := "",
    pick := 0, extractRc := 0, extractStderr := "",
    enhance := true, fmt := "mp3", signal := [],
    enhanceFault := none, convertFault := none, unlinkOk := fun _ => true }

/-- C1 (counterexample): on the no-audio-tracks exit path no deletion is
even attempted — although every unlink would succeed, the uploaded video's
temp file is still on disk when the session ends. -/
theorem C1_no_audio_leak_counterexample :
    (probeResult envNoTracks).1 = []
    ∧ Msg.error "No audio tracks found in the video file." ∈ (runSession envNoTracks).msgs
    ∧ (∀ p, envNoTracks.unlinkOk p = true)
    ∧ envNoTracks.videoTmp ∈ (runSession envNoTracks).files := by
  refine ⟨by decide, by decide, fun p => rfl, by decide⟩

/-- A fully successful session (no enhancement, WAV output). -/
def envHappy : Env :=
  { videoTmp := "/tmp/video2.mp4", audioTmp := "/tmp/audio2.wav",
    outTmp := "/tmp/out2.wav", origStem := "clip",
    probeRc := 0, probeStderr := "", probeParsed := some ⟨some [jsEng]⟩, probeErr := "",
    pick := 0, extractRc := 0, extractStderr := "",
    enhance := false, fmt := "wav", signal := [],
    enhanceFault := none, convertFault := none, unlinkOk := fun _ => true }

theorem C1_cleanup_witness :
    envHappy.videoTmp ∉ (runSession envHappy).files
    ∧ envHappy.audioTmp ∉ (runSession envHappy).files := by
  have h := C1_cleanup_amended envHappy (by decide) (by decide)
  exact ⟨h.1 (fun p => rfl) ((tryState envHappy).locals.video_path) (by simp)
           envHappy.videoTmp (by decide),
         h.1 (fun p => rfl) ((tryState envHappy).locals.audio_path) (by simp)
           envHappy.audioTmp (by decide)⟩

/-- C6: with enhancement on and a successful extraction, the enhancer applies
exactly pre-emphasis then peak normalization (in that order), the normalized
peak is exactly 1 (for a signal whose pre-emphasized peak is nonzero), the
result is written to the input path with `"_enhanced"` inserted before the
`.wav` extension, and the input WAV file is not deleted by the enhancement
step. -/
theorem C6_enhancer_contract (env : Env) (stem : String)
    (hne : (probeResult env).1 ≠ [])
    (hrc : env.extractRc = 0)
    (henh : env.enhance = true)
    (hfault : env.enhanceFault = none)
    (hpath : env.audioTmp = stem ++ ".wav")
    (hstem : '.' ∉ stem.data)
    (hpeak : peakAbs (preemphasis env.signal) ≠ 0) :
    enhanceSignal env.signal = normalize (preemphasis env.signal)
    ∧ peakAbs (enhanceSignal env.signal) = 1
    ∧ enhancedPath env = stem ++ "_enhanced.wav"
    ∧ Event.sfWrite (enhancedPath env) (enhanceSignal env.signal) ∈ (runSession env).trace
    ∧ env.audioTmp ∈ (tryState env).files := by
  refine ⟨rfl, peakAbs_normalize _ hpeak, ?_, ?_, ?_⟩
  · unfold enhancedPath
    rw [hpath]
    exact replaceAll_enhanced stem hstem
  · rw [runSession_nonempty env hne, runCleanup_trace, tryState_ok_eq env hrc,
      enhancePhase_on env _ _ _ henh hfault]
    obtain ⟨tf, tt, _, h2, _, _⟩ := convertPhase_ext env (probeResult env).1 (sessIdx env) _
    rw [h2]
    simp
  · rw [tryState_ok_eq env hrc, enhancePhase_on env _ _ _ henh hfault]
    obtain ⟨tf, tt, h1, _, _, _⟩ := convertPhase_ext env (probeResult env).1 (sessIdx env) _
    rw [h1]
    simp [postExtractState]

/-- Session with enhancement on and a short non-silent signal. -/
def envEnhance : Env :=
  { videoTmp := "/tmp/video6.mp4", audioTmp := "/tmp/audio6.wav",
    outTmp := "/tmp/out6.mp3", origStem := "clip",
    probeRc := 0, probeStderr := "", probeParsed := some ⟨some [jsEng]⟩, probeErr := "",
    pick := 0, extractRc := 0, extractStderr := "",
    enhance := true, fmt := "mp3", signal := [1],
    enhanceFault := none, convertFault := none, unlinkOk := fun _ => true }

theorem C6_enhancer_contract_witness :
    enhanceSignal envEnhance.signal = normalize (preemphasis envEnhance.signal)
    ∧ peakAbs (enhanceSignal envEnhance.signal) = 1
    ∧ enhancedPath envEnhance = "/tmp/audio6" ++ "_enhanced.wav"
    ∧ Event.sfWrite (enhancedPath envEnhance) (enhanceSignal envEnhance.signal)
        ∈ (runSession envEnhance).trace
    ∧ envEnhance.audioTmp ∈ (tryState envEnhance).files :=
  C6_enhancer_contract envEnhance "/tmp/audio6" (by decide) rfl rfl rfl (by decide)
    (by decide) (by norm_num [envEnhance, preemphasis, preemphasisAux, preemCoef, peakAbs])

/-- C7: with `"wav"` selected as output format, the converter re-encodes
nothing (no `export` call ever happens) and the final artifact path is the
existing (possibly enhanced) WAV path itself. -/
theorem C7_wav_no_reencode (env : Env)
    (hne : (probeResult env).1 ≠ [])
    (hrc : env.extractRc = 0)
    (hfmt : env.fmt = "wav")
    (hfault : env.enhance = true → env.enhanceFault = none) :
    (∀ p f, Event.exportAudio p f ∉ (runSession env).trace)
    ∧ (runSession env).locals.final_output_path = (runSession env).locals.final_audio_path
    ∧ (runSession env).locals.final_audio_path ≠ none := by
  rw [runSession_nonempty env hne]
  cases he : env.enhance with
  | true =>
    have h := tryState_ok_eq env hrc
    rw [enhancePhase_on env _ _ _ he (hfault he), convertPhase_wav env _ _ _ hfmt] at h
    refine ⟨?_, ?_, ?_⟩
    · intro p f hc
      rw [runCleanup_trace, h, successPhase_trace] at hc
      simp [postExtractState] at hc
    · rw [runCleanup_locals, h, successPhase_locals]
    · rw [runCleanup_locals, h, successPhase_locals]
      simp
  | false =>
    have h := tryState_ok_eq env hrc
    rw [enhancePhase_off env _ _ _ he, convertPhase_wav env _ _ _ hfmt] at h
    refine ⟨?_, ?_, ?_⟩
    · intro p f hc
      rw [runCleanup_trace, h, successPhase_trace] at hc
      simp [postExtractState] at hc
    · rw [runCleanup_locals, h, successPhase_locals]
    · rw [runCleanup_locals, h, successPhase_locals]
      simp

/-- Session with WAV output and no enhancement. -/
def envWav : Env :=
  { videoTmp := "/tmp/video7.mp4", audioTmp := "/tmp/audio7.wav",
    outTmp := "/tmp/out7.wav", origStem := "clip",
    probeRc := 0, probeStderr := "", probeParsed := some ⟨some [jsEng]⟩, probeErr := "",
    pick := 0, extractRc := 0, extractStderr := "",
    enhance := false, fmt := "wav", signal := [],
    enhanceFault := none, convertFault := none, unlinkOk := fun _ => true }

theorem C7_wav_no_reencode_witness :
    (∀ p f, Event.exportAudio p f ∉ (runSession envWav).trace)
    ∧ (runSession envWav).locals.final_output_path
        = (runSession envWav).locals.final_audio_path
    ∧ (runSession envWav).locals.final_audio_path ≠ none :=
  C7_wav_no_reencode envWav (by decide) rfl rfl (by decide)

/-- C9: re-normalizing an already-normalized (peak exactly 1, hence
non-silent) signal leaves the peak at exactly 1, while pre-emphasis is not
idempotent (witnessed by the signal `[1, 0]`). -/
theorem C9_normalization_idempotence :
    (∀ y : List ℚ, peakAbs y = 1 → peakAbs (normalize y) = 1)
    ∧ preemphasis (preemphasis [1, 0]) ≠ preemphasis [1, 0] := by
  constructor
  · intro y h
    exact peakAbs_normalize y (by rw [h]; exact one_ne_zero)
  · simp only [preemphasis, preemphasisAux, preemCoef]
    norm_num

theorem C9_normalization_idempotence_witness :
    peakAbs (normalize [(1 : ℚ)]) = 1 := by
  apply C9_normalization_idempotence.1 [(1 : ℚ)]
  simp [peakAbs]

end AudioExtractor
